import Mathlib

/-
Verification of the zabbixscript repository's group-rename / backup-rollback
workflow against its specification.

The Python sources are shallowly embedded:
  * ids (groupid / hostid) are the decimal strings the Zabbix API returns;
  * the JSON-RPC transport is modelled by an outcome type (`HttpOutcome`) for
    the two API-client functions, and by environments (`GroupEnv`,
    `RollbackEnv`) mapping each request to its response for the workflow
    functions, so that transport failures and server answers can be injected;
  * the rename workflow (`zabbix_group_update.py`) is modelled against a
    deterministic in-memory server state (`ServerState`), since the claims
    about it concern only successful exchanges;
  * every modelled function also returns the list of API calls it issues
    (`Call`), used to state frame / effect properties.
-/

namespace ZabbixScript

/-- Error kinds an API exchange can signal (cf. the except clauses of
`ZabbixAPI._call_api` in template_replacer.py and the exceptions that
propagate out of `call_api` in zabbix_group_update.py). -/
inductive ApiErr where
  | timeout
  | connError
  | httpError (status : Nat)
  | jsonDecode
  | rpcError (msg : String)
  | keyError
deriving DecidableEq, Repr

/-- An API request issued to the server, as recorded in call traces. -/
inductive Call where
  | groupGetByName (name : String)
  | groupGetById (gid : String)
  | groupCreate (name : String)
  | groupUpdate (gid : String) (name : String)
  | groupDelete (gid : String)
  | hostGet (hostid : String)
  | hostGetByGroup (gid : Nat)
  | hostUpdate (hostid : String) (groups : List String)
deriving DecidableEq, Repr

/-! ## API client (C1)

`call_api` (zabbix_group_update.py lines 39-54) and `ZabbixAPI._call_api`
(template_replacer.py lines 62-102) are modelled as functions of the outcome
of the underlying HTTP POST. -/

/-- The JSON-RPC body of a successfully parsed HTTP response: an optional
`error` member (its message/data) and an optional `result` member (payload
kept opaque as a string). -/
structure RpcBody where
  error : Option String
  result : Option String
deriving DecidableEq, Repr

/-- Outcome of the HTTP POST performed by `requests`: the transport timed
out, the connection failed, or a response arrived with a status code and a
body (`none` when the body is not valid JSON). -/
inductive HttpOutcome where
  | timeout
  | connError
  | success (status : Nat) (body : Option RpcBody)
deriving DecidableEq, Repr

/-- `requests.Response.raise_for_status` raises exactly for 4xx and 5xx
status codes. -/
def statusFailure (s : Nat) : Bool := 400 ≤ s && s < 600

/-- `call_api` from zabbix_group_update.py: posts, parses the body with
`response.json()` (raising on invalid JSON), raises when the JSON-RPC body
has an `error` member, and otherwise returns `result['result']` (a missing
`result` member raises `KeyError`).  The HTTP status code is never
inspected. -/
def call_api : HttpOutcome → Except ApiErr String
  | .timeout => .error .timeout
  | .connError => .error .connError
  | .success _ none => .error .jsonDecode
  | .success _ (some b) =>
    match b.error with
    | some e => .error (.rpcError e)
    | none =>
      match b.result with
      | some v => .ok v
      | none => .error .keyError

/-- `ZabbixAPI._call_api` from template_replacer.py: posts, calls
`raise_for_status()`, parses the body, raises when the JSON-RPC body has an
`error` member, and otherwise returns `result.get("result")` (possibly
`None`). -/
def ZabbixAPI_call_api : HttpOutcome → Except ApiErr (Option String)
  | .timeout => .error .timeout
  | .connError => .error .connError
  | .success status body =>
    if statusFailure status then .error (.httpError status)
    else
      match body with
      | none => .error .jsonDecode
      | some b =>
        match b.error with
        | some e => .error (.rpcError e)
        | none => .ok b.result

/-- Whether an `Except` value signals an error. -/
def isErr {ε α : Type} : Except ε α → Bool
  | .error _ => true
  | .ok _ => false

/-- Modelled from the spec: the spec's five failure conditions for the API
client — transport timeout, connection failure, HTTP failure status,
invalid-JSON body, or an `error` member in the JSON-RPC response. -/
def specFailCondition : HttpOutcome → Bool
  | .timeout => true
  | .connError => true
  | .success _ none => true
  | .success status (some b) => statusFailure status || b.error.isSome

/-- Modelled from the spec: the failure conditions with the HTTP-status
condition removed (what `call_api` actually checks). -/
def specFailNoStatus : HttpOutcome → Bool
  | .timeout => true
  | .connError => true
  | .success _ none => true
  | .success _ (some b) => b.error.isSome

/-- A parsed JSON-RPC response body is well-formed when it carries an
`error` or a `result` member. -/
def wellFormedOutcome : HttpOutcome → Bool
  | .success _ (some b) => b.error.isSome || b.result.isSome
  | _ => true

/-! ## In-memory server state for the rename workflow (C5-C8)

The claims about `rename_group` / `move_hosts_to_group` / `main` concern
successful exchanges only, so these functions are modelled against a
deterministic server state answering every request.  `nextId` feeds fresh
group ids for `hostgroup.create`. -/

/-- A host group as the server stores it. -/
structure Group where
  groupid : String
  name : String
deriving DecidableEq, Repr

/-- A host as the server stores it, with the ids of the groups it belongs
to. -/
structure Host where
  hostid : String
  groups : List String
deriving DecidableEq, Repr

/-- The remote Zabbix server's relevant state. -/
structure ServerState where
  groups : List Group
  hosts : List Host
  nextId : Nat
deriving DecidableEq, Repr

/-- Response to `hostgroup.get` with `filter: {name: n}`. -/
def ServerState.findGroupsByName (st : ServerState) (n : String) : List Group :=
  st.groups.filter (fun g => g.name == n)

/-- The host ids of the hosts belonging to group `gid` (what `selectHosts`
returns alongside a group). -/
def ServerState.hostsOfGroup (st : ServerState) (gid : String) : List String :=
  (st.hosts.filter (fun h => h.groups.contains gid)).map (fun h => h.hostid)

/-- Effect of `hostgroup.create`: a fresh group id is allocated. -/
def ServerState.createGroup (st : ServerState) (n : String) : ServerState × String :=
  (⟨st.groups ++ [⟨toString st.nextId, n⟩], st.hosts, st.nextId + 1⟩, toString st.nextId)

/-- Effect of `host.update` replacing a host's whole group list. -/
def ServerState.updateHostGroups (st : ServerState) (hid : String) (gs : List String) :
    ServerState :=
  ⟨st.groups, st.hosts.map (fun h => if h.hostid == hid then ⟨h.hostid, gs⟩ else h), st.nextId⟩

/-- Effect of `hostgroup.update` renaming a group. -/
def ServerState.renameGroup (st : ServerState) (gid n : String) : ServerState :=
  ⟨st.groups.map (fun g => if g.groupid == gid then ⟨g.groupid, n⟩ else g), st.hosts, st.nextId⟩

/-- The prefix list tried by `rename_group` (zabbix_group_update.py line 85),
in its fixed order. -/
def prefixList : List String :=
  ["a_", "b_", "c_", "d_", "e_", "f_", "g_", "h_", "i_", "j_", "k_", "l_", "m_",
   "n_", "o_", "p_", "q_", "r_", "s_", "t_", "u_", "v_", "w_", "x_", "y_", "z_"]

/-- The prefixed-lookup loop of `rename_group` (lines 95-106): try each
prefixed name in order, stopping at the first non-empty result; also records
the `hostgroup.get` calls issued. -/
def tryPrefixed (st : ServerState) (orig : String) : List String → List Group × List Call
  | [] => ([], [])
  | p :: ps =>
    let r := st.findGroupsByName (p ++ orig)
    if r.isEmpty then
      let rec' := tryPrefixed st orig ps
      (rec'.1, Call.groupGetByName (p ++ orig) :: rec'.2)
    else
      (r, [Call.groupGetByName (p ++ orig)])

/-- The group lookup of `rename_group` (lines 87-106): exact match first,
then the prefixed retries. -/
def lookupGroup (st : ServerState) (orig : String) : List Group × List Call :=
  let r := st.findGroupsByName orig
  if r.isEmpty then
    let t := tryPrefixed st orig prefixList
    (t.1, Call.groupGetByName orig :: t.2)
  else
    (r, [Call.groupGetByName orig])

/-- The per-host `host.update` loop of `move_hosts_to_group`
(lines 170-174): each host's group list is replaced by the single target
group. -/
def updateHostsLoop (st : ServerState) (tgid : String) : List String → ServerState × List Call
  | [] => (st, [])
  | h :: hs =>
    let st' := st.updateHostGroups h [tgid]
    let rest := updateHostsLoop st' tgid hs
    (rest.1, Call.hostUpdate h [tgid] :: rest.2)

/-- `move_hosts_to_group` (lines 154-174): no-op on an empty host list;
otherwise resolve the target group by name, creating it when absent, then
replace each host's group list with the single target group. -/
def move_hosts_to_group (st : ServerState) (hostids : List String) (targetName : String) :
    ServerState × List Call :=
  if hostids.isEmpty then (st, [])
  else
    match st.findGroupsByName targetName with
    | g :: _ =>
      let r := updateHostsLoop st g.groupid hostids
      (r.1, Call.groupGetByName targetName :: r.2)
    | [] =>
      let c := st.createGroup targetName
      let r := updateHostsLoop c.1 c.2 hostids
      (r.1, Call.groupGetByName targetName :: Call.groupCreate targetName :: r.2)

/-- The group id `move_hosts_to_group` resolves (or allocates) for a target
name, read off the pre-move state. -/
def moveTargetId (st : ServerState) (targetName : String) : String :=
  match st.findGroupsByName targetName with
  | g :: _ => g.groupid
  | [] => toString st.nextId

/-- Python `c in s` on a string. -/
def strContains (s : String) (c : Char) : Bool := s.data.contains c

/-- Python `s.startswith(p)`. -/
def strStartsWith (s p : String) : Bool := p.data.isPrefixOf s.data

/-- Python `s.split(sep)[0]`: the substring before the first occurrence of
the separator (the whole string when the separator does not occur). -/
def splitHead (s : String) (sep : Char) : String := ⟨s.data.takeWhile (fun c => c != sep)⟩

/-- The name `rename_group` sends in its `hostgroup.update` call
(lines 130-137): when the current name contains an underscore, the substring
before the first underscore plus an underscore (`old_name.split('_')[0] +
'_'`) is prepended to `new_name` unless `new_name` already starts with
it. -/
def finalNewName (oldName newName : String) : String :=
  if strContains oldName '_' then
    let p := splitHead oldName '_' ++ "_"
    if strStartsWith newName p then newName else p ++ newName
  else newName

/-- Result of one `rename_group` run: the returned value (the matched
group's id on the offline path, `None` otherwise), the server state after
the run, and the calls issued. -/
structure RenameResult where
  ret : Option String
  state : ServerState
  calls : List Call
deriving DecidableEq, Repr

/-- `rename_group` (lines 82-150): look the group up (exact, then
prefixed); zero matches or more than one match skip the row returning
`None`; on `new_name == '下线'` move the group's hosts to the group named
`下线` and return the matched group's id; otherwise rename the group to
`finalNewName`. -/
def rename_group (st : ServerState) (orig newName : String) : RenameResult :=
  let l := lookupGroup st orig
  match l.1 with
  | [] => ⟨none, st, l.2⟩
  | [g] =>
    let hostids := st.hostsOfGroup g.groupid
    if newName = "下线" then
      let m := move_hosts_to_group st hostids "下线"
      ⟨some g.groupid, m.1, l.2 ++ m.2⟩
    else
      let fn := finalNewName g.name newName
      ⟨none, st.renameGroup g.groupid fn, l.2 ++ [Call.groupUpdate g.groupid fn]⟩
  | _ => ⟨none, st, l.2⟩

/-! ## CSV filtering and the main loop (C8) -/

/-- One row of `group_changes.csv` as `csv.DictReader` yields it: the
original name column and the new-name column (which may be missing). -/
structure CsvRow where
  orig : String
  newName : Option String
deriving DecidableEq, Repr

/-- Python's `str.strip()`: drop leading and trailing whitespace. -/
def pyStrip (s : String) : String :=
  ⟨((s.data.dropWhile Char.isWhitespace).reverse.dropWhile Char.isWhitespace).reverse⟩

/-- The CSV-reading loop of `main` (zabbix_group_update.py lines 297-314):
rows with a missing or blank new name, with the `无需修改` sentinel, or with
a blank original name are dropped before any processing; kept rows become
`([orig_name], new_name)` work items. -/
def filterRows : List CsvRow → List (List String × String)
  | [] => []
  | r :: rest =>
    match r.newName with
    | none => filterRows rest
    | some raw =>
      if pyStrip raw = "" then filterRows rest
      else if pyStrip raw = "无需修改" then filterRows rest
      else if pyStrip r.orig = "" then filterRows rest
      else ([pyStrip r.orig], pyStrip raw) :: filterRows rest

/-- The inner loop of `main`'s step 2 (lines 325-331) over the original
names of one work item: run `rename_group` for each, collecting the group
ids to clean up when the row is an offline row (`if original_groupid and
new_name == '下线'`, where a Python string is truthy when non-empty). -/
def processOrigNames (st : ServerState) (newName : String) :
    List String → ServerState × List Call × List String
  | [] => (st, [], [])
  | o :: os =>
    let r := rename_group st o newName
    let cleanup :=
      match r.ret with
      | some gid => if gid ≠ "" && newName = "下线" then [gid] else []
      | none => []
    let rest := processOrigNames r.state newName os
    (rest.1, r.calls ++ rest.2.1, cleanup ++ rest.2.2)

/-- `main`'s step 2 (lines 320-331): process the filtered work items in
order, threading the server state and accumulating the issued calls and the
group ids collected for cleanup (the source stores them in a set; encounter
order is kept here). -/
def processRows (st : ServerState) : List (List String × String) →
    ServerState × List Call × List String
  | [] => (st, [], [])
  | (origs, newName) :: rest =>
    let r := processOrigNames st newName origs
    let rest' := processRows r.1 rest
    (rest'.1, r.2.1 ++ rest'.2.1, r.2.2 ++ rest'.2.2)

/-! ## Emptiness check and deletion (C4, C9)

`is_group_empty` and `delete_empty_group` must be examined under failing
API calls, so they are modelled against an environment mapping each request
they can issue to its response. -/

/-- Helper for `intOfString`: fold decimal digits, failing on any
non-digit character. -/
def intDigitsAux : List Char → Nat → Option Nat
  | [], acc => some acc
  | c :: cs, acc => if c.isDigit then intDigitsAux cs (acc * 10 + (c.toNat - 48)) else none

/-- Python's `int()` applied to the id strings these scripts handle
(canonical decimal digit strings): parses the decimal value, failing on an
empty string or any non-digit character. -/
def intOfString (s : String) : Option Nat :=
  if s.data.isEmpty then none else intDigitsAux s.data 0

/-- Responses of the server to the requests `is_group_empty` /
`delete_empty_group` issue: the `host.get` by group id (returning host ids,
with `limit: 1` applied by the server) and the `hostgroup.delete`. -/
structure GroupEnv where
  hostGetByGroup : Nat → Except ApiErr (List String)
  groupDelete : String → Except ApiErr Unit

/-- `is_group_empty` (zabbix_group_update.py lines 177-200): `None` or
non-numeric group ids yield `False`; otherwise `host.get` is issued for the
integer id and the group counts as empty exactly when the returned host
list is empty; any exception from the call yields `False`.  Ids here are
the canonical decimal strings the API returns, so `int(groupid)` is
`intOfString`. -/
def is_group_empty (env : GroupEnv) (groupid : Option String) : Bool × List Call :=
  match groupid with
  | none => (false, [])
  | some s =>
    match intOfString s with
    | none => (false, [])
    | some n =>
      match env.hostGetByGroup n with
      | .error _ => (false, [Call.hostGetByGroup n])
      | .ok hs => (hs.isEmpty, [Call.hostGetByGroup n])

/-- `delete_empty_group` (lines 203-233): `None` or non-numeric ids yield
`False`; a group `is_group_empty` reports non-empty is skipped with
`False`; otherwise `hostgroup.delete` is issued with the stringified
integer id, returning `True` on success and `False` when it raises. -/
def delete_empty_group (env : GroupEnv) (groupid : Option String) : Bool × List Call :=
  match groupid with
  | none => (false, [])
  | some s =>
    match intOfString s with
    | none => (false, [])
    | some n =>
      let e := is_group_empty env (some s)
      if e.1 then
        match env.groupDelete (toString n) with
        | .ok _ => (true, e.2 ++ [Call.groupDelete (toString n)])
        | .error _ => (false, e.2 ++ [Call.groupDelete (toString n)])
      else (false, e.2)

/-! ## Rollback script (C2, C3, C10)

`rollback_script.py` is modelled against an environment mapping each
request it issues to its response, so that missing hosts and failing calls
can be injected. -/

/-- A host entry of a backup snapshot (`hostid`, display name). -/
structure HostRef where
  hostid : String
  name : String
deriving DecidableEq, Repr

/-- One entry of the response to `host.get` with `selectGroups`: the ids of
the groups the host currently belongs to. -/
structure HostInfo where
  groups : List String
deriving DecidableEq, Repr

/-- A backup snapshot entry: the group's id at backup time and its host
list. -/
structure GroupInfo where
  groupid : String
  hosts : List HostRef
deriving DecidableEq, Repr

/-- Responses of the server to the requests the rollback script issues. -/
structure RollbackEnv where
  offlineLookup : Except ApiErr (List String)
  hostGet : String → Except ApiErr (List HostInfo)
  hostUpdate : String → List String → Except ApiErr Unit
  groupGetById : String → Except ApiErr (List Group)
  groupCreate : String → Except ApiErr String
  groupUpdate : String → String → Except ApiErr Unit

/-- The membership list `restore_hosts_to_group` pushes for one host
(rollback_script.py lines 117-123): drop every offline group id, append the
target id when absent, and fall back to the target alone when the list
would be empty. -/
def newGroupIds (groupIds offlineIds : List String) (target : String) : List String :=
  let stripped := groupIds.filter (fun gid => !(offlineIds.contains gid))
  let withTarget := if stripped.contains target then stripped else stripped ++ [target]
  if withTarget.isEmpty then [target] else withTarget

/-- Processing of one host inside `restore_hosts_to_group`'s loop
(lines 101-135): fetch the host; a raising fetch is caught and logged; an
empty result is skipped silently; otherwise push the rebuilt membership
list, logging a raising update.  Returns the calls issued and the host ids
logged as failed. -/
def restoreHost (env : RollbackEnv) (offlineIds : List String) (target : String)
    (h : HostRef) : List Call × List String :=
  match env.hostGet h.hostid with
  | .error _ => ([Call.hostGet h.hostid], [h.hostid])
  | .ok [] => ([Call.hostGet h.hostid], [])
  | .ok (info :: _) =>
    let gs := newGroupIds info.groups offlineIds target
    match env.hostUpdate h.hostid gs with
    | .ok _ => ([Call.hostGet h.hostid, Call.hostUpdate h.hostid gs], [])
    | .error _ => ([Call.hostGet h.hostid, Call.hostUpdate h.hostid gs], [h.hostid])

/-- The host loop of `restore_hosts_to_group`. -/
def restoreLoop (env : RollbackEnv) (offlineIds : List String) (target : String) :
    List HostRef → List Call × List String
  | [] => ([], [])
  | h :: hs =>
    let r := restoreHost env offlineIds target h
    let rest := restoreLoop env offlineIds target hs
    (r.1 ++ rest.1, r.2 ++ rest.2)

/-- Result of `restore_hosts_to_group`: the exception it re-raises when the
offline-group lookup fails (the only call outside its try blocks), the
calls issued, and the host ids logged as failed. -/
structure RestoreResult where
  raised : Option ApiErr
  calls : List Call
  failedHosts : List String
deriving DecidableEq, Repr

/-- `restore_hosts_to_group` (lines 86-135): returns at once on an empty
host list; looks up the group named `下线` (a failure here propagates);
then restores each host in turn. -/
def restore_hosts_to_group (env : RollbackEnv) (hosts : List HostRef) (target : String) :
    RestoreResult :=
  if hosts.isEmpty then ⟨none, [], []⟩
  else
    match env.offlineLookup with
    | .error e => ⟨some e, [Call.groupGetByName "下线"], []⟩
    | .ok offlineIds =>
      let r := restoreLoop env offlineIds target hosts
      ⟨none, Call.groupGetByName "下线" :: r.1, r.2⟩

/-- Result of processing one backup entry inside `rollback_group_names`:
whether the entry counted as a success, the calls issued, and the host ids
logged as failed during restoration. -/
structure EntryResult where
  success : Bool
  calls : List Call
  failedHosts : List String
deriving DecidableEq, Repr

/-- One iteration of `rollback_group_names`'s loop (rollback_script.py
lines 27-78): fetch the group by its snapshot id; when gone, recreate it
and restore its hosts into the new id; when present, restore the hosts
unconditionally and then rename back only if the current name differs from
the snapshot name.  Any uncaught exception makes the entry count as an
error. -/
def processEntry (env : RollbackEnv) (oldName : String) (info : GroupInfo) : EntryResult :=
  match env.groupGetById info.groupid with
  | .error _ => ⟨false, [Call.groupGetById info.groupid], []⟩
  | .ok [] =>
    match env.groupCreate oldName with
    | .error _ => ⟨false, [Call.groupGetById info.groupid, Call.groupCreate oldName], []⟩
    | .ok newGid =>
      let r := restore_hosts_to_group env info.hosts newGid
      match r.raised with
      | some _ =>
        ⟨false, Call.groupGetById info.groupid :: Call.groupCreate oldName :: r.calls,
          r.failedHosts⟩
      | none =>
        ⟨true, Call.groupGetById info.groupid :: Call.groupCreate oldName :: r.calls,
          r.failedHosts⟩
  | .ok (g :: _) =>
    let r := restore_hosts_to_group env info.hosts info.groupid
    match r.raised with
    | some _ => ⟨false, Call.groupGetById info.groupid :: r.calls, r.failedHosts⟩
    | none =>
      if g.name ≠ oldName then
        match env.groupUpdate info.groupid oldName with
        | .ok _ =>
          ⟨true, (Call.groupGetById info.groupid :: r.calls) ++
            [Call.groupUpdate info.groupid oldName], r.failedHosts⟩
        | .error _ =>
          ⟨false, (Call.groupGetById info.groupid :: r.calls) ++
            [Call.groupUpdate info.groupid oldName], r.failedHosts⟩
      else ⟨true, Call.groupGetById info.groupid :: r.calls, r.failedHosts⟩

/-- `rollback_group_names` over a backup snapshot (its `name → info`
entries in iteration order): processes every entry and tallies success and
error counts; also accumulates the issued calls. -/
def rollback_group_names (env : RollbackEnv) :
    List (String × GroupInfo) → Nat × Nat × List Call
  | [] => (0, 0, [])
  | (n, info) :: rest =>
    let r := processEntry env n info
    let t := rollback_group_names env rest
    ((if r.success then t.1 + 1 else t.1), (if r.success then t.2.1 else t.2.1 + 1),
      r.calls ++ t.2.2)

/-- The ids of the groups named `下线` in state `st` — what the offline
lookup at the top of `restore_hosts_to_group` collects. -/
def offlineIdsOf (st : ServerState) : List String :=
  (st.findGroupsByName "下线").map (fun g => g.groupid)

/-- The environment a deterministic server in state `st` presents to the
rollback script: every call succeeds and is answered from `st` (`host.get`
answers with the host's current group list, the offline lookup with the ids
of the groups named `下线`). -/
def envOfState (st : ServerState) : RollbackEnv where
  offlineLookup := .ok (offlineIdsOf st)
  hostGet := fun hid =>
    .ok ((st.hosts.filter (fun h => h.hostid == hid)).map (fun h => ⟨h.groups⟩))
  hostUpdate := fun _ _ => .ok ()
  groupGetById := fun gid => .ok (st.groups.filter (fun g => g.groupid == gid))
  groupCreate := fun _ => .ok (toString st.nextId)
  groupUpdate := fun _ _ => .ok ()

/-! ## Concrete instances used by witnesses -/

/-- A server holding a single group `x_X` with one host, as in the spec's
prefixed-lookup scenario. -/
def wStateX : ServerState := ⟨[⟨"1", "x_X"⟩], [⟨"10", ["1"]⟩], 2⟩

/-- A server holding the offline group `下线` (id 9) and a target group `G`
(id 1), with one host currently in the offline group. -/
def wStateOff : ServerState := ⟨[⟨"9", "下线"⟩, ⟨"1", "G"⟩], [⟨"10", ["9"]⟩], 20⟩

/-- A snapshot host reference. -/
def wHostRef : HostRef := ⟨"10", "h10"⟩

/-- A snapshot entry for group id 1 holding `wHostRef`. -/
def wInfo : GroupInfo := ⟨"1", [wHostRef]⟩

/-- A rollback environment in which group 1 exists under its snapshot name
and every `host.get` answers with an empty list (the host is gone). -/
def wEnvGone : RollbackEnv where
  offlineLookup := .ok ["9"]
  hostGet := fun _ => .ok []
  hostUpdate := fun _ _ => .ok ()
  groupGetById := fun _ => .ok [⟨"1", "G"⟩]
  groupCreate := fun _ => .ok "2"
  groupUpdate := fun _ _ => .ok ()

/-- A rollback environment in which group 1 exists under its snapshot name
and has no snapshot hosts to restore. -/
def wEnvName : RollbackEnv where
  offlineLookup := .ok ["9"]
  hostGet := fun _ => .ok [⟨["9"]⟩]
  hostUpdate := fun _ _ => .ok ()
  groupGetById := fun _ => .ok [⟨"1", "G"⟩]
  groupCreate := fun _ => .ok "2"
  groupUpdate := fun _ _ => .ok ()

/-- An environment answering the emptiness probe with one host. -/
def wEnvBusy : GroupEnv where
  hostGetByGroup := fun _ => .ok ["77"]
  groupDelete := fun _ => .ok ()

/-- An environment whose emptiness probe always fails. -/
def wEnvErr : GroupEnv where
  hostGetByGroup := fun _ => .error .timeout
  groupDelete := fun _ => .ok ()

/-- The spec's sentinel CSV row `("测试组", "无需修改")`. -/
def wRow : CsvRow := ⟨"测试组", some "无需修改"⟩

/-! ## Theorems -/

/-- C1, counterexample: the free function `call_api` does not signal an
error on an HTTP response whose status indicates failure (500) when the
body parses to a JSON-RPC response without an `error` member: it returns
the result, although the spec's failure condition holds; the claim that
every API-call function raises in all five spec conditions is therefore
false. -/
theorem C1_call_api_ignores_http_status_counterexample :
    specFailCondition (HttpOutcome.success 500 (some ⟨none, some "ok"⟩)) = true
    ∧ call_api (HttpOutcome.success 500 (some ⟨none, some "ok"⟩)) = Except.ok "ok"
    ∧ isErr (call_api (HttpOutcome.success 500 (some ⟨none, some "ok"⟩))) = false :=
  ⟨rfl, rfl, rfl⟩

/-- C1, amended: for outcomes whose parsed JSON-RPC body is well-formed
(carries an `error` or a `result` member), `ZabbixAPI._call_api` signals an
error exactly under the spec's five conditions (timeout, connection
failure, HTTP failure status, invalid JSON, `error` member), while
`call_api` signals an error exactly under those conditions minus the HTTP
status, which it never consults. -/
theorem C1_api_client_failure_conditions (o : HttpOutcome)
    (hwf : wellFormedOutcome o = true) :
    isErr (ZabbixAPI_call_api o) = specFailCondition o
    ∧ isErr (call_api o) = specFailNoStatus o := by
  constructor
  · cases o with
    | timeout => rfl
    | connError => rfl
    | success status body =>
      cases body with
      | none =>
        simp only [ZabbixAPI_call_api, specFailCondition]
        split <;> rfl
      | some b =>
        rcases hb : b.error with _ | e
        · simp only [ZabbixAPI_call_api, specFailCondition, hb]
          split <;> simp_all [isErr]
        · simp only [ZabbixAPI_call_api, specFailCondition, hb]
          split <;> simp_all [isErr]
  · cases o with
    | timeout => rfl
    | connError => rfl
    | success status body =>
      cases body with
      | none => rfl
      | some b =>
        rcases hb : b.error with _ | e
        · rcases hr : b.result with _ | v
          · simp [wellFormedOutcome, hb, hr] at hwf
          · simp [call_api, specFailNoStatus, hb, hr, isErr]
        · simp [call_api, specFailNoStatus, hb, isErr]

/-- C1, witness: the amended equivalence evaluated on a well-formed
200-status response carrying a result. -/
theorem C1_api_client_failure_conditions_witness :
    wellFormedOutcome (HttpOutcome.success 200 (some ⟨none, some "ok"⟩)) = true
    ∧ isErr (ZabbixAPI_call_api (HttpOutcome.success 200 (some ⟨none, some "ok"⟩))) =
        specFailCondition (HttpOutcome.success 200 (some ⟨none, some "ok"⟩)) :=
  ⟨rfl, (C1_api_client_failure_conditions (HttpOutcome.success 200 (some ⟨none, some "ok"⟩)) rfl).1⟩

/-- C4: whenever `is_group_empty` reports a group non-empty (`False`),
`delete_empty_group` issues no `hostgroup.delete` call and returns
`False`. -/
theorem C4_no_delete_nonempty (env : GroupEnv) (gid : Option String)
    (h : (is_group_empty env gid).1 = false) :
    (delete_empty_group env gid).1 = false
    ∧ ∀ s, Call.groupDelete s ∉ (delete_empty_group env gid).2 := by
  rcases gid with _ | s
  · exact ⟨rfl, by intro s hs; simp [delete_empty_group] at hs⟩
  · rcases hn : intOfString s with _ | n
    · constructor
      · simp [delete_empty_group, hn]
      · intro t ht
        simp [delete_empty_group, hn] at ht
    · have hd : delete_empty_group env (some s) = (false, (is_group_empty env (some s)).2) := by
        simp [delete_empty_group, hn, h]
      refine ⟨by rw [hd], ?_⟩
      intro t ht
      rw [hd] at ht
      rcases he : env.hostGetByGroup n with e | hs'
      · simp [is_group_empty, hn, he] at ht
      · simp [is_group_empty, hn, he] at ht

/-- C4, witness: a probe returning one host marks the group non-empty and
deletion is refused. -/
theorem C4_no_delete_nonempty_witness :
    (is_group_empty wEnvBusy (some "5")).1 = false
    ∧ (delete_empty_group wEnvBusy (some "5")).1 = false
    ∧ Call.groupDelete "5" ∉ (delete_empty_group wEnvBusy (some "5")).2 :=
  ⟨rfl, (C4_no_delete_nonempty wEnvBusy (some "5") rfl).1,
    (C4_no_delete_nonempty wEnvBusy (some "5") rfl).2 "5"⟩

/-- C9: when the `host.get` probe inside `is_group_empty` raises (any
transport or API error), `is_group_empty` returns `False`, and
`delete_empty_group` on the same environment returns `False` without ever
issuing a `hostgroup.delete` call. -/
theorem C9_unverified_emptiness_no_delete (env : GroupEnv) (s : String) (n : Nat)
    (e : ApiErr) (hn : intOfString s = some n) (he : env.hostGetByGroup n = .error e) :
    (is_group_empty env (some s)).1 = false
    ∧ (delete_empty_group env (some s)).1 = false
    ∧ ∀ t, Call.groupDelete t ∉ (delete_empty_group env (some s)).2 := by
  have h1 : is_group_empty env (some s) = (false, [Call.hostGetByGroup n]) := by
    simp [is_group_empty, hn, he]
  have hd : delete_empty_group env (some s) = (false, [Call.hostGetByGroup n]) := by
    simp [delete_empty_group, hn, h1]
  refine ⟨by rw [h1], by rw [hd], ?_⟩
  intro t ht
  rw [hd] at ht
  simp at ht

/-- C9, witness: a timing-out probe on group 5. -/
theorem C9_unverified_emptiness_no_delete_witness :
    (is_group_empty wEnvErr (some "5")).1 = false
    ∧ (delete_empty_group wEnvErr (some "5")).1 = false
    ∧ Call.groupDelete "5" ∉ (delete_empty_group wEnvErr (some "5")).2 :=
  ⟨(C9_unverified_emptiness_no_delete wEnvErr "5" 5 .timeout rfl rfl).1,
    (C9_unverified_emptiness_no_delete wEnvErr "5" 5 .timeout rfl rfl).2.1,
    (C9_unverified_emptiness_no_delete wEnvErr "5" 5 .timeout rfl rfl).2.2 "5"⟩

/-- `filterRows` distributes over list append. -/
theorem filterRows_append (a b : List CsvRow) :
    filterRows (a ++ b) = filterRows a ++ filterRows b := by
  induction a with
  | nil => rfl
  | cons r rest ih =>
    rcases hn : r.newName with _ | raw
    · simp only [List.cons_append, filterRows, hn]
      exact ih
    · simp only [List.cons_append, filterRows, hn]
      by_cases h1 : pyStrip raw = ""
      · simp only [if_pos h1]
        exact ih
      · by_cases h2 : pyStrip raw = "无需修改"
        · simp only [if_neg h1, if_pos h2]
          exact ih
        · by_cases h3 : pyStrip r.orig = ""
          · simp only [if_neg h1, if_neg h2, if_pos h3]
            exact ih
          · simp only [if_neg h1, if_neg h2, if_neg h3]
            exact congrArg (List.cons ([pyStrip r.orig], pyStrip raw)) ih

/-- C8: a CSV row whose new-name column is the sentinel `无需修改` is
dropped by `main`'s CSV-filtering pass wherever it occurs, so the
downstream processing — and hence every lookup, rename, move and cleanup
call, all of which are driven by the filtered work items — is identical to
the run without that row. -/
theorem C8_sentinel_row_skipped (st : ServerState) (pre rest : List CsvRow) (r : CsvRow)
    (s : String) (hr : r.newName = some s) (hs : pyStrip s = "无需修改") :
    filterRows (pre ++ r :: rest) = filterRows (pre ++ rest)
    ∧ processRows st (filterRows (pre ++ r :: rest)) =
        processRows st (filterRows (pre ++ rest)) := by
  have key : filterRows (r :: rest) = filterRows rest := by
    simp [filterRows, hr, hs]
  have h1 : filterRows (pre ++ r :: rest) = filterRows (pre ++ rest) := by
    rw [filterRows_append, filterRows_append, key]
  exact ⟨h1, by rw [h1]⟩

/-- C8, witness: the spec's row `("测试组", "无需修改")` in an otherwise
empty CSV produces no work item and no processing difference. -/
theorem C8_sentinel_row_skipped_witness :
    filterRows ([] ++ wRow :: []) = filterRows ([] ++ [])
    ∧ processRows wStateX (filterRows ([] ++ wRow :: [])) =
        processRows wStateX (filterRows ([] ++ [])) :=
  C8_sentinel_row_skipped wStateX [] [] wRow "无需修改" rfl rfl

/-- The prefixed-lookup loop returns the result of the first prefix whose
lookup is non-empty, given that every earlier prefix misses. -/
theorem tryPrefixed_first_hit (st : ServerState) (orig : String) :
    ∀ (ps : List String) (k : Nat) (hk : k < ps.length),
      (∀ p ∈ ps.take k, st.findGroupsByName (p ++ orig) = []) →
      st.findGroupsByName (ps.get ⟨k, hk⟩ ++ orig) ≠ [] →
      (tryPrefixed st orig ps).1 = st.findGroupsByName (ps.get ⟨k, hk⟩ ++ orig) := by
  intro ps
  induction ps with
  | nil => intro k hk; exact absurd hk (by simp)
  | cons p ps ih =>
    intro k hk hmiss hhit
    cases k with
    | zero =>
      have hne : (st.findGroupsByName (p ++ orig)).isEmpty = false := by
        rcases hr : st.findGroupsByName (p ++ orig) with _ | ⟨a, tl⟩
        · exact absurd hr hhit
        · rfl
      simp only [tryPrefixed, hne, Bool.false_eq_true, if_false]
      rfl
    | succ k =>
      have hp : st.findGroupsByName (p ++ orig) = [] := hmiss p (by simp)
      have hpe : (st.findGroupsByName (p ++ orig)).isEmpty = true := by simp [hp]
      simp only [tryPrefixed, hpe, if_true]
      exact ih k (by simpa using hk)
        (fun q hq => hmiss q (by rw [List.take_succ_cons]; exact List.mem_cons_of_mem p hq))
        hhit

/-- The prefixed-lookup loop returns no group when every prefixed lookup
misses. -/
theorem tryPrefixed_all_miss (st : ServerState) (orig : String) :
    ∀ ps : List String, (∀ p ∈ ps, st.findGroupsByName (p ++ orig) = []) →
      (tryPrefixed st orig ps).1 = [] := by
  intro ps
  induction ps with
  | nil => intro; rfl
  | cons p ps ih =>
    intro hmiss
    have hp : st.findGroupsByName (p ++ orig) = [] := hmiss p (by simp)
    have hpe : (st.findGroupsByName (p ++ orig)).isEmpty = true := by simp [hp]
    simp only [tryPrefixed, hpe, if_true]
    exact ih (fun q hq => hmiss q (by simp [hq]))

/-- C6: `rename_group`'s lookup takes the exact match when one exists;
otherwise it takes the result of the first prefix `a_` … `z_` (in that
fixed order) whose prefixed lookup is non-empty; when the exact lookup and
every prefixed lookup miss, the row is skipped (`None` returned, server
state untouched); and when the lookup yields more than one group the row is
likewise skipped. -/
theorem C6_lookup_resolution (st : ServerState) (orig newName : String) (k : Nat)
    (hk : k < prefixList.length) :
    (st.findGroupsByName orig ≠ [] → (lookupGroup st orig).1 = st.findGroupsByName orig)
    ∧ (st.findGroupsByName orig = [] →
        (∀ p ∈ prefixList.take k, st.findGroupsByName (p ++ orig) = []) →
        st.findGroupsByName (prefixList.get ⟨k, hk⟩ ++ orig) ≠ [] →
        (lookupGroup st orig).1 = st.findGroupsByName (prefixList.get ⟨k, hk⟩ ++ orig))
    ∧ (st.findGroupsByName orig = [] →
        (∀ p ∈ prefixList, st.findGroupsByName (p ++ orig) = []) →
        (rename_group st orig newName).ret = none
        ∧ (rename_group st orig newName).state = st)
    ∧ (1 < (lookupGroup st orig).1.length →
        (rename_group st orig newName).ret = none
        ∧ (rename_group st orig newName).state = st) := by
  refine ⟨?_, ?_, ?_, ?_⟩
  · intro hne
    have he : (st.findGroupsByName orig).isEmpty = false := by
      rcases hr : st.findGroupsByName orig with _ | ⟨a, tl⟩
      · exact absurd hr hne
      · rfl
    simp only [lookupGroup, he, Bool.false_eq_true, if_false]
  · intro hex hmiss hhit
    have he : (st.findGroupsByName orig).isEmpty = true := by simp [hex]
    simp only [lookupGroup, he, if_true]
    exact tryPrefixed_first_hit st orig prefixList k hk hmiss hhit
  · intro hex hmiss
    have he : (st.findGroupsByName orig).isEmpty = true := by simp [hex]
    have hl0 : (lookupGroup st orig).1 = [] := by
      simp only [lookupGroup, he, if_true]
      exact tryPrefixed_all_miss st orig prefixList hmiss
    constructor <;> simp [rename_group, hl0]
  · intro hlen
    rcases hmatch : (lookupGroup st orig).1 with _ | ⟨a, _ | ⟨b, tl⟩⟩
    · rw [hmatch] at hlen; simp at hlen
    · rw [hmatch] at hlen; simp at hlen
    · constructor <;> simp [rename_group, hmatch]

/-- C6, witness: with only the group `x_X` on the server, looking up `X`
misses exactly and on the prefixes `a_` … `w_`, and resolves at `x_`
(index 23) to the group `x_X` — never "not found". -/
theorem C6_lookup_resolution_witness :
    (lookupGroup wStateX "X").1 =
      wStateX.findGroupsByName (prefixList.get ⟨23, by decide⟩ ++ "X")
    ∧ (lookupGroup wStateX "X").1 = [⟨"1", "x_X"⟩] := by
  have h := (C6_lookup_resolution wStateX "X" "NewName" 23 (by decide)).2.1
    (by decide) (by decide) (by decide)
  exact ⟨h, by decide⟩

/-- C7: on the rename path (the new name is not the offline sentinel), the
row's `hostgroup.update` call carries `finalNewName`: when the matched
group's current name contains an underscore, the substring before the first
underscore followed by an underscore is prepended to the new name unless
the new name already starts with it, and otherwise (no underscore, or the
new name already carries the preserved part) the new name is sent
unchanged. -/
theorem C7_rename_prefix_preservation (st : ServerState) (orig newName : String) (g : Group)
    (hl : (lookupGroup st orig).1 = [g]) (hn : newName ≠ "下线") :
    (rename_group st orig newName).calls =
      (lookupGroup st orig).2 ++ [Call.groupUpdate g.groupid (finalNewName g.name newName)]
    ∧ (rename_group st orig newName).ret = none
    ∧ (strContains g.name '_' = true →
        (strStartsWith newName (splitHead g.name '_' ++ "_") = false →
          finalNewName g.name newName = (splitHead g.name '_' ++ "_") ++ newName)
        ∧ (strStartsWith newName (splitHead g.name '_' ++ "_") = true →
          finalNewName g.name newName = newName))
    ∧ (strContains g.name '_' = false → finalNewName g.name newName = newName) := by
  refine ⟨?_, ?_, ?_, ?_⟩
  · simp [rename_group, hl, hn]
  · simp [rename_group, hl, hn]
  · intro hc
    constructor
    · intro hs
      simp [finalNewName, hc, hs]
    · intro hs
      simp [finalNewName, hc, hs]
  · intro hc
    simp [finalNewName, hc]

/-- C7, witness: renaming the matched group `x_X` to `NewName` sends
`x_NewName` (the preserved part `x_` prepended). -/
theorem C7_rename_prefix_preservation_witness :
    (rename_group wStateX "X" "NewName").calls =
      (lookupGroup wStateX "X").2 ++
        [Call.groupUpdate "1" (finalNewName "x_X" "NewName")]
    ∧ finalNewName "x_X" "NewName" = "x_NewName" := by
  have h := C7_rename_prefix_preservation wStateX "X" "NewName" ⟨"1", "x_X"⟩
    (by decide) (by decide)
  exact ⟨h.1, by decide⟩

/-- The calls of the `host.update` loop: one update per host, each carrying
exactly the single target group. -/
theorem updateHostsLoop_calls (tgid : String) :
    ∀ (hs : List String) (st : ServerState),
      (updateHostsLoop st tgid hs).2 = hs.map (fun h => Call.hostUpdate h [tgid]) := by
  intro hs
  induction hs with
  | nil => intro st; rfl
  | cons h hs ih =>
    intro st
    simp only [updateHostsLoop, List.map_cons]
    rw [ih]

/-- The `host.update` loop does not touch the server's group list. -/
theorem updateHostsLoop_groups (tgid : String) :
    ∀ (hs : List String) (st : ServerState),
      (updateHostsLoop st tgid hs).1.groups = st.groups := by
  intro hs
  induction hs with
  | nil => intro st; rfl
  | cons h hs ih =>
    intro st
    simp only [updateHostsLoop]
    rw [ih]
    rfl

/-- Every call the prefixed-lookup loop issues is a `hostgroup.get` by
name. -/
theorem tryPrefixed_calls_shape (st : ServerState) (orig : String) :
    ∀ ps, ∀ c ∈ (tryPrefixed st orig ps).2, ∃ n, c = Call.groupGetByName n := by
  intro ps
  induction ps with
  | nil => intro c hc; simp [tryPrefixed] at hc
  | cons p ps ih =>
    intro c hc
    rcases he : (st.findGroupsByName (p ++ orig)).isEmpty with _ | _
    · simp only [tryPrefixed, he, Bool.false_eq_true, if_false, List.mem_singleton] at hc
      exact ⟨p ++ orig, hc⟩
    · simp only [tryPrefixed, he, if_true, List.mem_cons] at hc
      rcases hc with hc | hc
      · exact ⟨p ++ orig, hc⟩
      · exact ih c hc

/-- Every call the group lookup issues is a `hostgroup.get` by name. -/
theorem lookupGroup_calls_shape (st : ServerState) (orig : String) :
    ∀ c ∈ (lookupGroup st orig).2, ∃ n, c = Call.groupGetByName n := by
  intro c hc
  rcases he : (st.findGroupsByName orig).isEmpty with _ | _
  · simp only [lookupGroup, he, Bool.false_eq_true, if_false, List.mem_singleton] at hc
    exact ⟨orig, hc⟩
  · simp only [lookupGroup, he, if_true, List.mem_cons] at hc
    rcases hc with hc | hc
    · exact ⟨orig, hc⟩
    · exact tryPrefixed_calls_shape st orig prefixList c hc

/-- C5: on a row whose new name is the sentinel `下线`, `rename_group`
returns the matched group's id for the later emptiness check, issues one
`host.update` per host of the matched group carrying exactly the single
offline group id (replacing, not merging), resolves that id to a group
literally named `下线` — reusing an existing one or creating it — and
neither renames nor deletes any group. -/
theorem C5_offline_move (st : ServerState) (orig : String) (g : Group)
    (hl : (lookupGroup st orig).1 = [g]) :
    (rename_group st orig "下线").ret = some g.groupid
    ∧ (∀ h ∈ st.hostsOfGroup g.groupid,
        Call.hostUpdate h [moveTargetId st "下线"] ∈ (rename_group st orig "下线").calls)
    ∧ (∀ h gs, Call.hostUpdate h gs ∈ (rename_group st orig "下线").calls →
        gs = [moveTargetId st "下线"] ∧ h ∈ st.hostsOfGroup g.groupid)
    ∧ (∀ G tl, st.findGroupsByName "下线" = G :: tl →
        G.name = "下线" ∧ moveTargetId st "下线" = G.groupid)
    ∧ (st.findGroupsByName "下线" = [] → st.hostsOfGroup g.groupid ≠ [] →
        Call.groupCreate "下线" ∈ (rename_group st orig "下线").calls
        ∧ ∃ G ∈ (rename_group st orig "下线").state.groups,
            G.groupid = moveTargetId st "下线" ∧ G.name = "下线")
    ∧ (∀ gid n, Call.groupUpdate gid n ∉ (rename_group st orig "下线").calls)
    ∧ (∀ gid, Call.groupDelete gid ∉ (rename_group st orig "下线").calls) := by
  have hr : rename_group st orig "下线" =
      ⟨some g.groupid,
        (move_hosts_to_group st (st.hostsOfGroup g.groupid) "下线").1,
        (lookupGroup st orig).2 ++
          (move_hosts_to_group st (st.hostsOfGroup g.groupid) "下线").2⟩ := by
    simp [rename_group, hl]
  have hname : ∀ G tl, st.findGroupsByName "下线" = G :: tl →
      G.name = "下线" ∧ moveTargetId st "下线" = G.groupid := by
    intro G tl hoff
    have hmem : G ∈ st.findGroupsByName "下线" := by rw [hoff]; exact List.mem_cons_self G tl
    have : (fun g => g.name == "下线") G = true := (List.mem_filter.mp hmem).2
    refine ⟨by simpa using this, ?_⟩
    simp [moveTargetId, hoff]
  have hmove : ∀ hostids : List String, hostids ≠ [] →
      (move_hosts_to_group st hostids "下线").2 =
        Call.groupGetByName "下线" ::
          ((if st.findGroupsByName "下线" = [] then [Call.groupCreate "下线"] else []) ++
            hostids.map (fun h => Call.hostUpdate h [moveTargetId st "下线"])) := by
    intro hostids hne
    have hie : hostids.isEmpty = false := by
      rcases hostids with _ | ⟨a, tl⟩
      · exact absurd rfl hne
      · rfl
    rcases hoff : st.findGroupsByName "下线" with _ | ⟨G0, Gtl⟩
    · simp only [move_hosts_to_group, hie, Bool.false_eq_true, if_false, hoff, if_pos]
      rw [updateHostsLoop_calls]
      simp [moveTargetId, hoff, ServerState.createGroup]
    · simp only [move_hosts_to_group, hie, Bool.false_eq_true, if_false, hoff]
      rw [updateHostsLoop_calls]
      simp [moveTargetId, hoff]
  refine ⟨by rw [hr], ?_, ?_, hname, ?_, ?_, ?_⟩
  · intro h hmem
    rw [hr]
    have hne : st.hostsOfGroup g.groupid ≠ [] := by
      intro h0; rw [h0] at hmem; simp at hmem
    rw [hmove _ hne]
    refine List.mem_append_right _ ?_
    refine List.mem_cons_of_mem _ (List.mem_append_right _ ?_)
    exact List.mem_map.mpr ⟨h, hmem, rfl⟩
  · intro h gs hc
    rw [hr] at hc
    rcases List.mem_append.mp hc with hc | hc
    · rcases lookupGroup_calls_shape st orig _ hc with ⟨n, hn⟩
      exact absurd hn (by simp)
    · by_cases hne : st.hostsOfGroup g.groupid = []
      · rw [hne] at hc
        simp [move_hosts_to_group] at hc
      · rw [hmove _ hne] at hc
        rcases List.mem_cons.mp hc with hc | hc
        · exact absurd hc (by simp)
        · rcases List.mem_append.mp hc with hc | hc
          · rcases hoff : st.findGroupsByName "下线" with _ | _ <;> rw [hoff] at hc <;>
              simp at hc
          · rcases List.mem_map.mp hc with ⟨h', hmem', heq⟩
            have h1 : h' = h := by
              have := congrArg (fun c => match c with
                | Call.hostUpdate hid _ => hid
                | _ => "") heq
              simpa using this
            have h2 : gs = [moveTargetId st "下线"] := by
              have := congrArg (fun c => match c with
                | Call.hostUpdate _ gs => gs
                | _ => []) heq
              simpa using this.symm
            exact ⟨h2, h1 ▸ hmem'⟩
  · intro hoff hne
    constructor
    · rw [hr]
      rw [hmove _ hne]
      refine List.mem_append_right _ ?_
      refine List.mem_cons_of_mem _ (List.mem_append_left _ ?_)
      simp [hoff]
    · rw [hr]
      have hie : (st.hostsOfGroup g.groupid).isEmpty = false := by
        rcases hh : st.hostsOfGroup g.groupid with _ | _
        · exact absurd hh hne
        · rfl
      simp only [move_hosts_to_group, hie, Bool.false_eq_true, if_false, hoff]
      rw [updateHostsLoop_groups]
      refine ⟨⟨toString st.nextId, "下线"⟩, ?_, by simp [moveTargetId, hoff], rfl⟩
      simp [ServerState.createGroup]
  · intro gid n
    rw [hr]
    intro hc
    rcases List.mem_append.mp hc with hc | hc
    · rcases lookupGroup_calls_shape st orig _ hc with ⟨m, hm⟩
      exact absurd hm (by simp)
    · by_cases hne : st.hostsOfGroup g.groupid = []
      · rw [hne] at hc
        simp [move_hosts_to_group] at hc
      · rw [hmove _ hne] at hc
        rcases List.mem_cons.mp hc with hc | hc
        · exact absurd hc (by simp)
        · rcases List.mem_append.mp hc with hc | hc
          · rcases hoff : st.findGroupsByName "下线" with _ | _ <;> rw [hoff] at hc <;>
              simp at hc
          · rcases List.mem_map.mp hc with ⟨h', _, heq⟩
            exact absurd heq (by simp)
  · intro gid
    rw [hr]
    intro hc
    rcases List.mem_append.mp hc with hc | hc
    · rcases lookupGroup_calls_shape st orig _ hc with ⟨m, hm⟩
      exact absurd hm (by simp)
    · by_cases hne : st.hostsOfGroup g.groupid = []
      · rw [hne] at hc
        simp [move_hosts_to_group] at hc
      · rw [hmove _ hne] at hc
        rcases List.mem_cons.mp hc with hc | hc
        · exact absurd hc (by simp)
        · rcases List.mem_append.mp hc with hc | hc
          · rcases hoff : st.findGroupsByName "下线" with _ | _ <;> rw [hoff] at hc <;>
              simp at hc
          · rcases List.mem_map.mp hc with ⟨h', _, heq⟩
            exact absurd heq (by simp)

/-- C5, witness: the row `("X", "下线")` on a server whose only groups are
`x_X` (holding host 10) moves host 10 to the freshly created group `下线`
(id 2) and returns `x_X`'s id 1. -/
theorem C5_offline_move_witness :
    (rename_group wStateX "X" "下线").ret = some "1"
    ∧ Call.hostUpdate "10" [moveTargetId wStateX "下线"] ∈ (rename_group wStateX "X" "下线").calls
    ∧ Call.groupCreate "下线" ∈ (rename_group wStateX "X" "下线").calls
    ∧ moveTargetId wStateX "下线" = "2" := by
  have h := C5_offline_move wStateX "X" ⟨"1", "x_X"⟩ (by decide)
  refine ⟨h.1, ?_, (h.2.2.2.2.1 (by decide) (by decide)).1, by decide⟩
  exact h.2.1 "10" (by decide)

/-- Every call issued for one restored host is the `host.get` for that host
or a `host.update` for that host. -/
theorem restoreHost_calls_shape (env : RollbackEnv) (off : List String) (target : String)
    (h : HostRef) :
    ∀ c ∈ (restoreHost env off target h).1,
      c = Call.hostGet h.hostid ∨ ∃ gs, c = Call.hostUpdate h.hostid gs := by
  intro c hc
  rcases hg : env.hostGet h.hostid with e | ⟨_ | ⟨info, rest⟩⟩
  · simp only [restoreHost, hg, List.mem_singleton] at hc
    exact Or.inl hc
  · simp only [restoreHost, hg, List.mem_singleton] at hc
    exact Or.inl hc
  · simp only [restoreHost, hg] at hc
    rcases hu : env.hostUpdate h.hostid (newGroupIds info.groups off target) with _ | e <;>
        simp only [hu, List.mem_cons, List.not_mem_nil, or_false] at hc <;>
        rcases hc with hc | hc
    · exact Or.inl hc
    · exact Or.inr ⟨_, hc⟩
    · exact Or.inl hc
    · exact Or.inr ⟨_, hc⟩

/-- Every host id logged as failed while restoring one host is that host's
id. -/
theorem restoreHost_failed_shape (env : RollbackEnv) (off : List String) (target : String)
    (h : HostRef) :
    ∀ x ∈ (restoreHost env off target h).2, x = h.hostid := by
  intro x hx
  rcases hg : env.hostGet h.hostid with e | ⟨_ | ⟨info, rest⟩⟩
  · simp only [restoreHost, hg, List.mem_singleton] at hx
    exact hx
  · simp only [restoreHost, hg] at hx
    simp at hx
  · simp only [restoreHost, hg] at hx
    rcases hu : env.hostUpdate h.hostid (newGroupIds info.groups off target) with _ | e <;>
        simp only [hu] at hx <;> simp at hx
    exact hx

/-- A `host.update` recorded while restoring one host targets that host's
id, and its group list is the one rebuilt from the host's fetched
memberships. -/
theorem restoreHost_hostUpdate_inv (env : RollbackEnv) (off : List String) (target : String)
    (h : HostRef) (hid : String) (gs : List String) :
    Call.hostUpdate hid gs ∈ (restoreHost env off target h).1 →
    hid = h.hostid ∧ ∃ info rest, env.hostGet h.hostid = .ok (info :: rest) ∧
      gs = newGroupIds info.groups off target := by
  intro hc
  rcases hg : env.hostGet h.hostid with e | ⟨_ | ⟨info, rest⟩⟩
  · simp only [restoreHost, hg] at hc
    simp at hc
  · simp only [restoreHost, hg] at hc
    simp at hc
  · simp only [restoreHost, hg] at hc
    rcases hu : env.hostUpdate h.hostid (newGroupIds info.groups off target) with _ | e <;>
        simp only [hu] at hc <;> simp at hc
    · exact ⟨hc.1, info, rest, rfl, hc.2⟩
    · exact ⟨hc.1, info, rest, rfl, hc.2⟩

/-- Calls of one host's restoration are calls of the whole loop. -/
theorem restoreLoop_mem_calls (env : RollbackEnv) (off : List String) (target : String) :
    ∀ (hs : List HostRef) (h : HostRef), h ∈ hs →
      ∀ c ∈ (restoreHost env off target h).1, c ∈ (restoreLoop env off target hs).1 := by
  intro hs
  induction hs with
  | nil => intro h hmem; simp at hmem
  | cons h0 hs ih =>
    intro h hmem c hc
    rcases List.mem_cons.mp hmem with heq | hmem'
    · exact List.mem_append_left _ (heq ▸ hc)
    · exact List.mem_append_right _ (ih h hmem' c hc)

/-- Every call of the restoration loop arises from one of its hosts. -/
theorem restoreLoop_calls_inv (env : RollbackEnv) (off : List String) (target : String) :
    ∀ (hs : List HostRef) (c : Call), c ∈ (restoreLoop env off target hs).1 →
      ∃ h ∈ hs, c ∈ (restoreHost env off target h).1 := by
  intro hs
  induction hs with
  | nil => intro c hc; simp [restoreLoop] at hc
  | cons h0 hs ih =>
    intro c hc
    rcases List.mem_append.mp hc with hc | hc
    · exact ⟨h0, List.mem_cons_self h0 hs, hc⟩
    · rcases ih c hc with ⟨h, hmem, hc'⟩
      exact ⟨h, List.mem_cons_of_mem h0 hmem, hc'⟩

/-- Every failed host id of the restoration loop arises from one of its
hosts. -/
theorem restoreLoop_failed_inv (env : RollbackEnv) (off : List String) (target : String) :
    ∀ (hs : List HostRef) (x : String), x ∈ (restoreLoop env off target hs).2 →
      ∃ h ∈ hs, x ∈ (restoreHost env off target h).2 := by
  intro hs
  induction hs with
  | nil => intro x hx; simp [restoreLoop] at hx
  | cons h0 hs ih =>
    intro x hx
    rcases List.mem_append.mp hx with hx | hx
    · exact ⟨h0, List.mem_cons_self h0 hs, hx⟩
    · rcases ih x hx with ⟨h, hmem, hx'⟩
      exact ⟨h, List.mem_cons_of_mem h0 hmem, hx'⟩

/-- When the offline-group lookup answers, `restore_hosts_to_group` raises
nothing. -/
theorem restore_raised_none (env : RollbackEnv) (hosts : List HostRef) (target : String)
    (off : List String) (hoff : env.offlineLookup = .ok off) :
    (restore_hosts_to_group env hosts target).raised = none := by
  rcases hosts with _ | ⟨h, hs⟩
  · rfl
  · simp only [restore_hosts_to_group, hoff, List.isEmpty_cons, Bool.false_eq_true, if_false]

/-- The calls of a non-trivial restoration: the offline lookup followed by
the loop's calls. -/
theorem restore_calls_eq (env : RollbackEnv) (hosts : List HostRef) (target : String)
    (off : List String) (hoff : env.offlineLookup = .ok off) (hne : hosts ≠ []) :
    restore_hosts_to_group env hosts target =
      ⟨none, Call.groupGetByName "下线" :: (restoreLoop env off target hosts).1,
        (restoreLoop env off target hosts).2⟩ := by
  rcases hosts with _ | ⟨h, hs⟩
  · exact absurd rfl hne
  · simp only [restore_hosts_to_group, hoff, List.isEmpty_cons, Bool.false_eq_true, if_false]

/-- No `hostgroup.update` is ever issued by `restore_hosts_to_group`. -/
theorem restore_no_groupUpdate (env : RollbackEnv) (hosts : List HostRef) (target : String) :
    ∀ gid n, Call.groupUpdate gid n ∉ (restore_hosts_to_group env hosts target).calls := by
  intro gid n hc
  unfold restore_hosts_to_group at hc
  rcases hosts with _ | ⟨h, hs⟩
  · simp at hc
  · rcases hoff : env.offlineLookup with e | off <;> rw [hoff] at hc <;> simp at hc
    rcases restoreLoop_calls_inv env off target (h :: hs) _ hc with ⟨h', _, hc'⟩
    rcases restoreHost_calls_shape env off target h' _ hc' with h1 | ⟨gs, h2⟩
    · simp at h1
    · simp at h2

/-- The rebuilt membership list is never empty, contains exactly the
non-offline current groups plus the target, and collapses to the target
alone when stripping the offline groups leaves nothing. -/
theorem newGroupIds_spec (G off : List String) (t : String) :
    newGroupIds G off t ≠ []
    ∧ (∀ x, x ∈ newGroupIds G off t ↔ (x ∈ G ∧ x ∉ off) ∨ x = t)
    ∧ (G.filter (fun gid => !(off.contains gid)) = [] → newGroupIds G off t = [t]) := by
  have hmemS : ∀ x, x ∈ G.filter (fun gid => !(off.contains gid)) ↔ x ∈ G ∧ x ∉ off := by
    intro x
    rw [List.mem_filter]
    simp [List.contains]
  by_cases hc : (G.filter (fun gid => !(off.contains gid))).contains t = true
  · have htmem : t ∈ G.filter (fun gid => !(off.contains gid)) := by
      simpa [List.contains] using hc
    have hne : (G.filter (fun gid => !(off.contains gid))).isEmpty = false := by
      rcases hh : G.filter (fun gid => !(off.contains gid)) with _ | _
      · rw [hh] at htmem; simp at htmem
      · rfl
    have hval : newGroupIds G off t = G.filter (fun gid => !(off.contains gid)) := by
      simp only [newGroupIds, hc, if_true, hne, Bool.false_eq_true, if_false]
    refine ⟨?_, ?_, ?_⟩
    · rw [hval]
      intro h0
      rw [h0] at htmem
      simp at htmem
    · intro x
      rw [hval, hmemS]
      constructor
      · exact Or.inl
      · rintro (hx | hx)
        · exact hx
        · subst hx
          exact (hmemS x).mp htmem
    · intro h0
      rw [h0] at htmem
      simp at htmem
  · have hval : newGroupIds G off t =
        G.filter (fun gid => !(off.contains gid)) ++ [t] := by
      have hne : (G.filter (fun gid => !(off.contains gid)) ++ [t]).isEmpty = false := by
        rcases hh : G.filter (fun gid => !(off.contains gid)) with _ | _ <;> rfl
      simp only [newGroupIds, hc, Bool.false_eq_true, if_false, hne]
    refine ⟨?_, ?_, ?_⟩
    · rw [hval]
      simp
    · intro x
      rw [hval, List.mem_append, hmemS]
      simp
    · intro h0
      rw [hval, h0]
      rfl

/-- C2: restoring hosts against a deterministic server in state `st`, every
snapshot host that still exists on the server receives exactly one kind of
`host.update`: its current memberships minus every group named `下线`, with
the target id appended when absent — a list that is never empty and that
collapses to the target alone when stripping the offline groups leaves
nothing. -/
theorem C2_restore_membership (st : ServerState) (hosts : List HostRef) (target : String)
    (hr : HostRef) (hostRec : Host) (hrest : List Host)
    (hmem : hr ∈ hosts)
    (hfind : st.hosts.filter (fun x => x.hostid == hr.hostid) = hostRec :: hrest) :
    (restore_hosts_to_group (envOfState st) hosts target).raised = none
    ∧ Call.hostUpdate hr.hostid (newGroupIds hostRec.groups (offlineIdsOf st) target)
        ∈ (restore_hosts_to_group (envOfState st) hosts target).calls
    ∧ (∀ gs, Call.hostUpdate hr.hostid gs
          ∈ (restore_hosts_to_group (envOfState st) hosts target).calls →
        gs = newGroupIds hostRec.groups (offlineIdsOf st) target)
    ∧ newGroupIds hostRec.groups (offlineIdsOf st) target ≠ []
    ∧ (∀ x, x ∈ newGroupIds hostRec.groups (offlineIdsOf st) target ↔
        (x ∈ hostRec.groups ∧ x ∉ offlineIdsOf st) ∨ x = target)
    ∧ (hostRec.groups.filter (fun gid => !((offlineIdsOf st).contains gid)) = [] →
        newGroupIds hostRec.groups (offlineIdsOf st) target = [target]) := by
  have hne : hosts ≠ [] := by
    intro h0
    rw [h0] at hmem
    simp at hmem
  have hoff : (envOfState st).offlineLookup = .ok (offlineIdsOf st) := rfl
  have hre := restore_calls_eq (envOfState st) hosts target (offlineIdsOf st) hoff hne
  have hget : (envOfState st).hostGet hr.hostid =
      .ok (⟨hostRec.groups⟩ :: hrest.map (fun h => (⟨h.groups⟩ : HostInfo))) := by
    show Except.ok ((st.hosts.filter (fun x => x.hostid == hr.hostid)).map
      (fun h => (⟨h.groups⟩ : HostInfo))) = _
    rw [hfind]
    rfl
  have hhost : restoreHost (envOfState st) (offlineIdsOf st) target hr =
      ([Call.hostGet hr.hostid,
        Call.hostUpdate hr.hostid (newGroupIds hostRec.groups (offlineIdsOf st) target)],
       []) := by
    simp only [restoreHost, hget]
    rfl
  refine ⟨restore_raised_none _ hosts target _ hoff, ?_, ?_, (newGroupIds_spec _ _ _).1,
    (newGroupIds_spec _ _ _).2.1, (newGroupIds_spec _ _ _).2.2⟩
  · rw [hre]
    refine List.mem_cons_of_mem _ ?_
    refine restoreLoop_mem_calls (envOfState st) (offlineIdsOf st) target hosts hr hmem _ ?_
    rw [hhost]
    simp
  · intro gs hc
    rw [hre] at hc
    rcases List.mem_cons.mp hc with hc | hc
    · exact absurd hc (by simp)
    · rcases restoreLoop_calls_inv (envOfState st) (offlineIdsOf st) target hosts _ hc with
        ⟨h', _, hc'⟩
      rcases restoreHost_hostUpdate_inv (envOfState st) (offlineIdsOf st) target h' _ _ hc' with
        ⟨hid_eq, info, rest, hgeti, hgs⟩
      have : (envOfState st).hostGet h'.hostid =
          .ok (⟨hostRec.groups⟩ :: hrest.map (fun h => (⟨h.groups⟩ : HostInfo))) := by
        rw [← hid_eq]
        exact hget
      rw [this] at hgeti
      have hinfo : info = (⟨hostRec.groups⟩ : HostInfo) := by
        injection hgeti with h1
        exact (List.cons.injEq .. ▸ h1).1.symm
      rw [hgs, hinfo]

/-- C2, witness: host 10 currently sits only in the offline group (id 9);
restoring it to target group 1 strips the offline group, leaving zero
groups, so the pushed list is the target alone — and never empty. -/
theorem C2_restore_membership_witness :
    Call.hostUpdate "10" (newGroupIds ["9"] (offlineIdsOf wStateOff) "1")
      ∈ (restore_hosts_to_group (envOfState wStateOff) [wHostRef] "1").calls
    ∧ newGroupIds ["9"] (offlineIdsOf wStateOff) "1" ≠ []
    ∧ newGroupIds ["9"] (offlineIdsOf wStateOff) "1" = ["1"] := by
  have h := C2_restore_membership wStateOff [wHostRef] "1" wHostRef ⟨"10", ["9"]⟩ []
    (by decide) (by decide)
  exact ⟨h.2.1, h.2.2.2.1, by decide⟩

/-- C3: for a snapshot entry whose group id still exists, rollback restores
host memberships unconditionally (the restoration's calls are issued before
and regardless of the name comparison) and issues the `hostgroup.update`
rename if and only if the group's current name differs from the snapshot
name — so a re-run against a server already in the target state issues no
rename yet still reapplies the restoration. -/
theorem C3_rollback_rename_iff (env : RollbackEnv) (oldName : String) (info : GroupInfo)
    (g : Group) (grest : List Group)
    (hex : env.groupGetById info.groupid = .ok (g :: grest))
    (hres : (restore_hosts_to_group env info.hosts info.groupid).raised = none) :
    (processEntry env oldName info).calls =
      Call.groupGetById info.groupid ::
        (restore_hosts_to_group env info.hosts info.groupid).calls ++
        (if g.name = oldName then [] else [Call.groupUpdate info.groupid oldName])
    ∧ ((∃ n, Call.groupUpdate info.groupid n ∈ (processEntry env oldName info).calls)
        ↔ g.name ≠ oldName) := by
  have htrace : (processEntry env oldName info).calls =
      Call.groupGetById info.groupid ::
        (restore_hosts_to_group env info.hosts info.groupid).calls ++
        (if g.name = oldName then [] else [Call.groupUpdate info.groupid oldName]) := by
    by_cases hnm : g.name = oldName
    · simp only [processEntry, hex, hres, ne_eq, ite_not]
      rw [if_pos hnm, if_pos hnm, List.append_nil]
    · rcases hu : env.groupUpdate info.groupid oldName with _ | e <;>
        simp only [processEntry, hex, hres, hu, ne_eq, ite_not] <;>
        rw [if_neg hnm, if_neg hnm]
  refine ⟨htrace, ?_, ?_⟩
  · rintro ⟨n, hn⟩
    rw [htrace] at hn
    intro hnm
    rw [if_pos hnm] at hn
    rw [List.append_nil] at hn
    rcases List.mem_cons.mp hn with hn | hn
    · simp at hn
    · exact restore_no_groupUpdate env info.hosts info.groupid info.groupid n hn
  · intro hnm
    refine ⟨oldName, ?_⟩
    rw [htrace, if_neg hnm]
    refine List.mem_append_right _ ?_
    simp

/-- C3, witness: a snapshot entry with no hosts whose group still carries
the snapshot name `G` — a re-run in the target state — issues no rename. -/
theorem C3_rollback_rename_iff_witness :
    Call.groupUpdate "1" "G" ∉ (processEntry wEnvName "G" ⟨"1", []⟩).calls
    ∧ (processEntry wEnvName "G" ⟨"1", []⟩).calls = [Call.groupGetById "1"] := by
  have h := C3_rollback_rename_iff wEnvName "G" ⟨"1", []⟩ ⟨"1", "G"⟩ [] rfl rfl
  exact ⟨fun hmem => (h.2.mp ⟨"G", hmem⟩) rfl, by decide⟩

/-- For a host id whose `host.get` answers with an empty list, the
restoration loop issues no `host.update` for that id and logs no failure
for it. -/
theorem restoreLoop_skip_missing (env : RollbackEnv) (off : List String) (target : String)
    (hid : String) (hgone : env.hostGet hid = .ok []) :
    ∀ hs : List HostRef,
      (∀ gs, Call.hostUpdate hid gs ∉ (restoreLoop env off target hs).1)
      ∧ hid ∉ (restoreLoop env off target hs).2 := by
  intro hs
  induction hs with
  | nil => exact ⟨fun gs h => by simp [restoreLoop] at h, by simp [restoreLoop]⟩
  | cons h0 hs ih =>
    constructor
    · intro gs hmem
      rcases List.mem_append.mp hmem with hc | hc
      · rcases restoreHost_hostUpdate_inv env off target h0 _ _ hc with
          ⟨hid_eq, info, rest, hgeti, _⟩
        rw [← hid_eq, hgone] at hgeti
        simp at hgeti
      · exact ih.1 gs hc
    · intro hmem
      rcases List.mem_append.mp hmem with hc | hc
      · have heq := restoreHost_failed_shape env off target h0 _ hc
        by_cases hh : h0.hostid = hid
        · have : restoreHost env off target h0 = ([Call.hostGet h0.hostid], []) := by
            simp only [restoreHost, hh, hgone]
          rw [this] at hc
          simp at hc
        · exact hh (heq ▸ rfl)
      · exact ih.2 hc

/-- C10: a snapshot host whose `host.get` answers with an empty result (the
host no longer exists) is skipped silently during restoration — no
`host.update` for it, no per-host failure logged — and the enclosing group
still counts as a rollback success (tallied `1` success, `0` errors on a
one-entry snapshot). -/
theorem C10_missing_host_skipped (env : RollbackEnv) (oldName : String) (info : GroupInfo)
    (g : Group) (grest : List Group) (hr : HostRef) (off : List String)
    (hex : env.groupGetById info.groupid = .ok (g :: grest))
    (hoff : env.offlineLookup = .ok off)
    (hmem : hr ∈ info.hosts)
    (hgone : env.hostGet hr.hostid = .ok [])
    (hren : g.name = oldName ∨ env.groupUpdate info.groupid oldName = .ok ()) :
    (∀ gs, Call.hostUpdate hr.hostid gs ∉ (processEntry env oldName info).calls)
    ∧ hr.hostid ∉ (processEntry env oldName info).failedHosts
    ∧ (processEntry env oldName info).success = true
    ∧ rollback_group_names env [(oldName, info)] =
        (1, 0, (processEntry env oldName info).calls) := by
  have hne : info.hosts ≠ [] := by
    intro h0
    rw [h0] at hmem
    simp at hmem
  have hres := restore_raised_none env info.hosts info.groupid off hoff
  have hre := restore_calls_eq env info.hosts info.groupid off hoff hne
  have hskip := restoreLoop_skip_missing env off info.groupid hr.hostid hgone info.hosts
  have hentry : processEntry env oldName info =
      if g.name ≠ oldName then
        match env.groupUpdate info.groupid oldName with
        | .ok _ =>
          ⟨true, (Call.groupGetById info.groupid ::
            (restore_hosts_to_group env info.hosts info.groupid).calls) ++
            [Call.groupUpdate info.groupid oldName],
            (restore_hosts_to_group env info.hosts info.groupid).failedHosts⟩
        | .error _ =>
          ⟨false, (Call.groupGetById info.groupid ::
            (restore_hosts_to_group env info.hosts info.groupid).calls) ++
            [Call.groupUpdate info.groupid oldName],
            (restore_hosts_to_group env info.hosts info.groupid).failedHosts⟩
      else ⟨true, Call.groupGetById info.groupid ::
          (restore_hosts_to_group env info.hosts info.groupid).calls,
          (restore_hosts_to_group env info.hosts info.groupid).failedHosts⟩ := by
    simp only [processEntry, hex, hres]
  have hcalls : ∀ gs, Call.hostUpdate hr.hostid gs ∉ (processEntry env oldName info).calls := by
    intro gs hc
    rw [hentry] at hc
    by_cases hnm : g.name = oldName
    · rw [if_neg (by simpa using hnm)] at hc
      rcases List.mem_cons.mp hc with hc | hc
      · simp at hc
      · rw [hre] at hc
        rcases List.mem_cons.mp hc with hc | hc
        · simp at hc
        · exact hskip.1 gs hc
    · rw [if_pos (by simpa using hnm)] at hc
      rcases hu : env.groupUpdate info.groupid oldName with _ | e <;> rw [hu] at hc <;>
          rcases List.mem_append.mp hc with hc | hc
      · rcases List.mem_cons.mp hc with hc | hc
        · simp at hc
        · rw [hre] at hc
          rcases List.mem_cons.mp hc with hc | hc
          · simp at hc
          · exact hskip.1 gs hc
      · simp at hc
      · rcases List.mem_cons.mp hc with hc | hc
        · simp at hc
        · rw [hre] at hc
          rcases List.mem_cons.mp hc with hc | hc
          · simp at hc
          · exact hskip.1 gs hc
      · simp at hc
  have hfail : hr.hostid ∉ (processEntry env oldName info).failedHosts := by
    intro hc
    rw [hentry] at hc
    have hfh : (restore_hosts_to_group env info.hosts info.groupid).failedHosts =
        (restoreLoop env off info.groupid info.hosts).2 := by
      rw [hre]
    by_cases hnm : g.name = oldName
    · rw [if_neg (by simpa using hnm)] at hc
      rw [hfh] at hc
      exact hskip.2 hc
    · rw [if_pos (by simpa using hnm)] at hc
      rcases hu : env.groupUpdate info.groupid oldName with _ | e <;> rw [hu] at hc <;>
          rw [hfh] at hc <;> exact hskip.2 hc
  have hsucc : (processEntry env oldName info).success = true := by
    rw [hentry]
    by_cases hnm : g.name = oldName
    · rw [if_neg (by simpa using hnm)]
    · rw [if_pos (by simpa using hnm)]
      rcases hren with hren | hren
      · exact absurd hren hnm
      · rw [hren]
  refine ⟨hcalls, hfail, hsucc, ?_⟩
  simp only [rollback_group_names, hsucc, if_true]
  rw [List.append_nil]

/-- C10, witness: a one-host snapshot whose host is gone from the server;
the entry is tallied as a success with no update and no failure log for the
missing host. -/
theorem C10_missing_host_skipped_witness :
    Call.hostUpdate "10" ["9"] ∉ (processEntry wEnvGone "G" wInfo).calls
    ∧ "10" ∉ (processEntry wEnvGone "G" wInfo).failedHosts
    ∧ (processEntry wEnvGone "G" wInfo).success = true
    ∧ rollback_group_names wEnvGone [("G", wInfo)] =
        (1, 0, (processEntry wEnvGone "G" wInfo).calls) := by
  have h := C10_missing_host_skipped wEnvGone "G" wInfo ⟨"1", "G"⟩ [] wHostRef ["9"]
    rfl rfl (by decide) rfl (Or.inl rfl)
  exact ⟨h.1 ["9"], h.2.1, h.2.2.1, h.2.2.2⟩

end ZabbixScript
